import Mathlib

/-!
# Matrix Lab Runner — shallow embedding

A shallow embedding of the Runner core of the `matrixlab` repository
(`src/runner/app/models.py`, `src/runner/app/sandbox.py`,
`src/runner/app/main.py`) and proofs of the specification claims about it.

Modelling conventions:

* Machine integers are `Int` (Python ints are unbounded; `subprocess`
  return codes fit in `Int`).
* Python `dict` fields are association lists in insertion order.
* The effectful parts of `run_job` (spawning `docker`, the filesystem
  writes under the job's `out/` directory, `docker kill`) are modelled
  with an explicit environment (`JobEnv`) supplying the outcome of each
  spawned subprocess, and with an instrumented output (`RunOutput`)
  recording the docker invocations composed, the container kills issued,
  the file writes performed, and the final contents of `out/`.
* The zip container format and base64 transport of
  `_zip_dir_to_base64` are modelled at the content level: the archive
  value is the list of `(relative path, content)` entries the function
  writes into the zip, in walk order.
-/

namespace Matrixlab

/-- `NetworkMode = Literal["none", "egress"]` (models.py, line 7). -/
inductive NetworkMode where
  | none
  | egress
deriving DecidableEq, Repr

/-- `class Step(BaseModel)` (models.py, lines 10–15), with pydantic defaults. -/
structure Step where
  name : String
  command : String
  timeout_seconds : Int := 120
  network : NetworkMode := NetworkMode.none
  env : List (String × String) := []
deriving Repr

/-- `class RunRequest(BaseModel)` (models.py, lines 18–28), with pydantic
defaults. `steps : List[Step]` carries no minimum-length constraint. -/
structure RunRequest where
  repo_url : String
  ref : Option String := Option.none
  steps : List Step
  cpu_limit : Float := 1.0
  mem_limit_mb : Int := 1024
  pids_limit : Int := 256
  sandbox_image : String := "matrix-lab-sandbox-python:latest"

/-- `class StepResult(BaseModel)` (models.py, lines 31–35). -/
structure StepResult where
  name : String
  exit_code : Int
  stdout : String
  stderr : String
deriving DecidableEq, Repr

/-- `CmdOut` dataclass (sandbox.py, lines 16–20): what `_run_local`
returns when the subprocess completes. -/
structure CmdOut where
  exit_code : Int
  stdout : String
  stderr : String
deriving Repr

/-- Outcome of one `_run_local(docker_cmd + [step_script], ...)` call as
observed by the `try`/`except` arms of `run_job` (sandbox.py, 188–241):
normal completion, `subprocess.TimeoutExpired` (with the exception's
optional captured `stdout`/`stderr`), `FileNotFoundError`, or any other
exception (carrying its message `str(e)`). -/
inductive SpawnOutcome where
  | completed (out : CmdOut)
  | timedOut (stdout? stderr? : Option String)
  | fileNotFound (msg : String)
  | raised (msg : String)

/-- The ambient state `run_job` reads: the two jobs-dir environment
variables, the pull-policy variable, the working directory, the fresh
`uuid4` job id, the directory name `tempfile.mkdtemp` returns for this
job (relative to the local jobs root), the per-step `uuid4().hex` nonce
used in container names, and the outcome of each step's subprocess. -/
structure JobEnv where
  localJobsDir? : Option String
  hostJobsDir? : Option String
  pullPolicy? : Option String
  cwd : String
  jobId : String
  jobDirName : String
  stepNonce : Nat → String
  outcome : Nat → SpawnOutcome

/-- `os.path.join` for the non-absolute second arguments used in
sandbox.py (every `join` there appends a plain relative component). -/
def pathJoin (a b : String) : String := a ++ "/" ++ b

/-- `local_jobs_root` (sandbox.py, line 88):
`os.environ.get("MATRIXLAB_LOCAL_JOBS_DIR", os.path.join(os.getcwd(), "runner_tmp"))`. -/
def localJobsRoot (env : JobEnv) : String :=
  env.localJobsDir?.getD (pathJoin env.cwd "runner_tmp")

/-- `host_jobs_root` (sandbox.py, line 90):
`os.environ.get("MATRIXLAB_HOST_JOBS_DIR", local_jobs_root)`. -/
def hostJobsRoot (env : JobEnv) : String :=
  env.hostJobsDir?.getD (localJobsRoot env)

/-- `local_job_dir` (sandbox.py, line 96): the directory `mkdtemp`
creates under `local_jobs_root`; its name relative to the root is
`env.jobDirName`. -/
def localJobDir (env : JobEnv) : String :=
  pathJoin (localJobsRoot env) env.jobDirName

/-- `rel_path = os.path.relpath(local_job_dir, local_jobs_root)`
(sandbox.py, line 101). Since `local_job_dir` is `local_jobs_root`
joined with the single fresh component `jobDirName`, `relpath` returns
that component. -/
def relPath (env : JobEnv) : String := env.jobDirName

/-- `host_job_dir = os.path.join(host_jobs_root, rel_path)`
(sandbox.py, line 102). -/
def hostJobDir (env : JobEnv) : String :=
  pathJoin (hostJobsRoot env) (relPath env)

/-- `local_out_dir` (sandbox.py, line 105). -/
def localOutDir (env : JobEnv) : String := pathJoin (localJobDir env) "out"

/-- `local_ws_dir` (sandbox.py, line 106). -/
def localWsDir (env : JobEnv) : String := pathJoin (localJobDir env) "ws"

/-- `host_out_dir` (sandbox.py, line 111). -/
def hostOutDir (env : JobEnv) : String := pathJoin (hostJobDir env) "out"

/-- `host_ws_dir` (sandbox.py, line 112). -/
def hostWsDir (env : JobEnv) : String := pathJoin (hostJobDir env) "ws"

/-- `pull_policy` (sandbox.py, line 127):
`os.environ.get("MATRIXLAB_DOCKER_PULL", "missing").strip()`. -/
def pullPolicy (env : JobEnv) : String :=
  (env.pullPolicy?.getD "missing").trim

/-- `pull_args` (sandbox.py, lines 128–130). -/
def pullArgs (p : String) : List String :=
  if p = "always" ∨ p = "missing" ∨ p = "never" then ["--pull", p] else []

/-- `network_flag` (sandbox.py, line 133):
`["--network", "none"] if step.network == "none" else ["--network", "bridge"]`;
pydantic's `Literal` restricts the field to the two modes. -/
def networkFlag : NetworkMode → List String
  | NetworkMode.none => ["--network", "none"]
  | NetworkMode.egress => ["--network", "bridge"]

/-- `container_name` (sandbox.py, line 134):
`f"mlab-{job_id[:8]}-{step.name[:10]}-{uuid.uuid4().hex[:4]}"`. -/
def containerName (jobId stepName nonce : String) : String :=
  "mlab-" ++ jobId.take 8 ++ "-" ++ stepName.take 10 ++ "-" ++ nonce.take 4

/-- `docker_cmd` (sandbox.py, lines 136–171): the argv composed for one
step, ending in `bash -lc` (the script is appended as the final
argument at the call site, as in line 190). -/
def dockerCmd (req : RunRequest) (cname hostWs hostOut : String)
    (step : Step) (pull : List String) : List String :=
  ["docker", "run", "--rm", "--name", cname, "--init", "--read-only",
   "--pids-limit", toString req.pids_limit,
   "--cpus", toString req.cpu_limit,
   "--memory", toString req.mem_limit_mb ++ "m",
   "--security-opt", "no-new-privileges", "--cap-drop", "ALL",
   "--ipc", "none", "--workdir", "/workspace",
   "-v", hostWs ++ ":/workspace:rw",
   "-v", hostOut ++ ":/output:rw",
   "--tmpfs", "/tmp:rw,noexec,nosuid,size=256m"]
  ++ networkFlag step.network ++ pull
  ++ [req.sandbox_image, "bash", "-lc"]

/-- The character class `shlex.quote` treats as safe: the complement of
Python's `_find_unsafe` regex (with `re.ASCII`) — ASCII word characters
plus `@`, `%`, `+`, `=`, `:`, `,`, `.`, `/`, `-`. -/
def shlexSafe (c : Char) : Bool :=
  c.isAlphanum || c = '_' || c = '@' || c = '%' || c = '+' || c = '=' ||
  c = ':' || c = ',' || c = '.' || c = '/' || c = '-'

/-- Python `shlex.quote`: empty strings become `\x27\x27`; strings of
safe characters pass through; otherwise wrap in single quotes, escaping
embedded single quotes. -/
def shlexQuote (s : String) : String :=
  if s = "" then "\x27\x27"
  else if s.all shlexSafe then s
  else "\x27" ++ (s.replace "\x27" "\x27\"\x27\"\x27") ++ "\x27"

/-- `env_exports` (sandbox.py, lines 173–175):
`" ".join([f"{shlex.quote(k)}={shlex.quote(v)}" for k, v in step.env.items()])`
when `step.env` is non-empty, else the empty string. -/
def envExports (step : Step) : String :=
  if step.env ≠ [] then
    String.intercalate " "
      (step.env.map fun kv => shlexQuote kv.1 ++ "=" ++ shlexQuote kv.2)
  else ""

/-- `step_script` (sandbox.py, lines 177–186): the f-string wrapping the
user command in the fixed preamble. Note the banner literal in the
source is `== Matrix Lab step: {step.name} ==`. -/
def stepScript (step : Step) : String :=
  let e := envExports step
  "\nset -euo pipefail\nmkdir -p /output\nexport HOME=/workspace\nexport OUTPUT_DIR=/output\n"
  ++ (if e ≠ "" then "export " ++ e else "")
  ++ "\n\necho \"== Matrix Lab step: " ++ step.name ++ " ==\"\n"
  ++ step.command ++ "\n"

/-- One composed step invocation, as recorded for inspection: the
container name, the full docker argv, and the script text passed to
`bash -lc`. -/
structure StepExec where
  containerName : String
  cmd : List String
  script : String

/-- Contents of the job's `out/` directory, keyed by path relative to
it; `writeFile` is `open(path, "w")` + `write`: it overwrites an
existing entry and otherwise appends one. -/
def writeFile (fs : List (String × String)) (p c : String) :
    List (String × String) :=
  if fs.any (fun e => e.1 = p) then
    fs.map (fun e => if e.1 = p then (p, c) else e)
  else fs ++ [(p, c)]

/-- Accumulated effect of the step loop of `run_job` (sandbox.py,
lines 132–241): the `results` list, the container names passed to
`docker kill`, the composed step invocations, the absolute local paths
of file writes performed, and the final `out/` contents. -/
structure LoopOut where
  results : List StepResult
  kills : List String
  execs : List StepExec
  writePaths : List String
  fs : List (String × String)

/-- `for step in req.steps:` (sandbox.py, lines 132–241). `i` is the
index of the current step in the original list (used to address the
per-step nonce and outcome); `fs` is the `out/` contents so far. Each
arm mirrors one `try`/`except` branch: on completion a `StepResult`
with the subprocess's code and streams is appended and
`out/_last_step.txt` written, then the loop breaks iff the exit code is
non-zero; on `TimeoutExpired` the container is killed by name and a
synthesized result with code 124 and `"\nTIMEOUT"` appended to stderr
breaks the loop; on `FileNotFoundError` or any other exception a
result with code 999 and a diagnostic stderr breaks the loop. -/
def stepLoop (env : JobEnv) (req : RunRequest) (hostWs hostOut localOut : String) :
    List Step → Nat → List (String × String) → LoopOut
  | [], _, fs => ⟨[], [], [], [], fs⟩
  | step :: rest, i, fs =>
    let cname := containerName env.jobId step.name (env.stepNonce i)
    let ex : StepExec :=
      ⟨cname, dockerCmd req cname hostWs hostOut step (pullArgs (pullPolicy env)),
       stepScript step⟩
    match env.outcome i with
    | SpawnOutcome.completed out =>
      let r : StepResult := ⟨step.name, out.exit_code, out.stdout, out.stderr⟩
      let lastStepPath := pathJoin localOut "_last_step.txt"
      let fs1 := writeFile fs "_last_step.txt"
        ("name=" ++ step.name ++ "\nexit_code=" ++ toString out.exit_code ++ "\n")
      if out.exit_code ≠ 0 then
        ⟨[r], [], [ex], [lastStepPath], fs1⟩
      else
        let t := stepLoop env req hostWs hostOut localOut rest (i + 1) fs1
        ⟨r :: t.results, t.kills, ex :: t.execs, lastStepPath :: t.writePaths, t.fs⟩
    | SpawnOutcome.timedOut so se =>
      ⟨[⟨step.name, 124, so.getD "", se.getD "" ++ "\nTIMEOUT"⟩], [cname], [ex], [], fs⟩
    | SpawnOutcome.fileNotFound msg =>
      ⟨[⟨step.name, 999, "", "Runner error: docker CLI not found.\n" ++ msg⟩],
       [], [ex], [], fs⟩
    | SpawnOutcome.raised msg =>
      ⟨[⟨step.name, 999, "", "Runner error: " ++ msg⟩], [], [ex], [], fs⟩

/-- The value `run_job` returns (sandbox.py, lines 250–254), extended
with the instrumentation of `LoopOut` and the computed job paths.
`artifacts` models `artifacts_zip_base64 = _zip_dir_to_base64(local_out_dir)`
at the content level: the archive's entries are the files under `out/`
keyed by path relative to `out/` (the `os.walk` + `os.path.relpath`
loop of sandbox.py, lines 66–71). -/
structure RunOutput where
  job_id : String
  results : List StepResult
  artifacts : Option (List (String × String))
  kills : List String
  execs : List StepExec
  writePaths : List String
  localJobDir : String
  hostJobDir : String

/-- `run_job` (sandbox.py, lines 79–254): path mapping, `out/` marker
write, the step loop, and the final artifact packing. The `_runner.txt`
marker write (lines 119–123) and its absolute local path are recorded;
the archive is always produced from the final `out/` contents. -/
def run_job (env : JobEnv) (req : RunRequest) : RunOutput :=
  let fs0 := writeFile [] "_runner.txt" "runner_ok=1\n"
  let t := stepLoop env req (hostWsDir env) (hostOutDir env) (localOutDir env)
    req.steps 0 fs0
  { job_id := env.jobId
    results := t.results
    artifacts := some t.fs
    kills := t.kills
    execs := t.execs
    writePaths := pathJoin (localOutDir env) "_runner.txt" :: t.writePaths
    localJobDir := localJobDir env
    hostJobDir := hostJobDir env }

/-! ## HTTP surface (main.py) and request validation (pydantic)

`POST /run` is declared as `def run(req: RunRequest)` (main.py, lines
48–55). FastAPI validates the JSON body against the pydantic model
*before* the endpoint function runs; a missing required field raises
`RequestValidationError`, which FastAPI's default handler turns into an
HTTP **422** response (main.py installs no custom validation handler).
Exceptions raised inside the endpoint become HTTP 500 (main.py,
lines 52–55). The raw (pre-validation) request body is modelled with
every field optional; validation fills pydantic defaults. -/

/-- A `Step` JSON object before validation: each field present or
absent. Fields of the wrong JSON type are out of scope; absence is what
the validation claims are about. -/
structure RawStep where
  name : Option String := Option.none
  command : Option String := Option.none
  timeout_seconds : Option Int := Option.none
  network : Option String := Option.none
  env : Option (List (String × String)) := Option.none

/-- A `RunRequest` JSON object before validation. -/
structure RawRunRequest where
  repo_url : Option String := Option.none
  ref : Option String := Option.none
  steps : Option (List RawStep) := Option.none
  cpu_limit : Option Float := Option.none
  mem_limit_mb : Option Int := Option.none
  pids_limit : Option Int := Option.none
  sandbox_image : Option String := Option.none

/-- Validation of the `network` field against
`Literal["none", "egress"]`; absence takes the declared default
`"none"` (models.py, line 14). -/
def parseNetwork : Option String → Except String NetworkMode
  | Option.none => Except.ok NetworkMode.none
  | some "none" => Except.ok NetworkMode.none
  | some "egress" => Except.ok NetworkMode.egress
  | some _ => Except.error "network: unexpected value; permitted: none, egress"

/-- Pydantic validation of one `Step` (models.py, lines 10–15): `name`
and `command` are required (no default); the rest take defaults. -/
def parseStep (r : RawStep) : Except String Step :=
  match r.name, r.command with
  | Option.none, _ => Except.error "steps: name: field required"
  | some _, Option.none => Except.error "steps: command: field required"
  | some n, some c =>
    match parseNetwork r.network with
    | Except.error e => Except.error e
    | Except.ok nw =>
      Except.ok { name := n, command := c,
                  timeout_seconds := r.timeout_seconds.getD 120,
                  network := nw, env := r.env.getD [] }

/-- Validation of the `steps` array element by element. -/
def parseSteps : List RawStep → Except String (List Step)
  | [] => Except.ok []
  | r :: rest =>
    match parseStep r with
    | Except.error e => Except.error e
    | Except.ok s =>
      match parseSteps rest with
      | Except.error e => Except.error e
      | Except.ok ss => Except.ok (s :: ss)

/-- Pydantic validation of a `RunRequest` (models.py, lines 18–28):
`repo_url` and `steps` are required; `ref` is `Optional[str] = None`;
the numeric fields and `sandbox_image` take their defaults. There is no
minimum-length constraint on `steps`. -/
def parseRunRequest (r : RawRunRequest) : Except String RunRequest :=
  match r.repo_url with
  | Option.none => Except.error "repo_url: field required"
  | some u =>
    match r.steps with
    | Option.none => Except.error "steps: field required"
    | some rs =>
      match parseSteps rs with
      | Except.error e => Except.error e
      | Except.ok steps =>
        Except.ok { repo_url := u, ref := r.ref, steps := steps,
                    cpu_limit := r.cpu_limit.getD 1.0,
                    mem_limit_mb := r.mem_limit_mb.getD 1024,
                    pids_limit := r.pids_limit.getD 256,
                    sandbox_image := r.sandbox_image.getD "matrix-lab-sandbox-python:latest" }

/-- An HTTP response of `POST /run`: 200 with a `RunResponse` body, 422
from FastAPI's default `RequestValidationError` handler, or 500 from
the endpoint's catch-all (main.py, lines 52–55). -/
inductive HttpResponse where
  | ok (body : RunOutput)
  | validationError (detail : String)
  | serverError (detail : String)

/-- The numeric HTTP status of a response. -/
def statusCode : HttpResponse → Nat
  | HttpResponse.ok _ => 200
  | HttpResponse.validationError _ => 422
  | HttpResponse.serverError _ => 500

/-- The `results` list of a 200 response body, if any. -/
def responseResults : HttpResponse → Option (List StepResult)
  | HttpResponse.ok o => some o.results
  | _ => Option.none

/-- `POST /run` (main.py, lines 48–55): FastAPI validates the body
against `RunRequest` first — a validation failure yields 422 and the
endpoint function (hence `run_job`) is never entered; a validated
request runs `run_job`. The `except Exception` → 500 arm concerns
failures inside `run_job` (preflight, packing), which the instrumented
`run_job` model does not raise. -/
def postRun (env : JobEnv) (raw : RawRunRequest) : HttpResponse :=
  match parseRunRequest raw with
  | Except.error msg => HttpResponse.validationError msg
  | Except.ok req => HttpResponse.ok (run_job env req)

/-! ## Helper lemmas about the step loop -/

/-- Fail-fast shape of a results list: any entry with non-zero exit
code is the last one. -/
def FailFast (l : List StepResult) : Prop :=
  ∀ j (h : j < l.length), (l.get ⟨j, h⟩).exit_code ≠ 0 → l.length = j + 1

theorem failFast_nil : FailFast [] := by
  intro j h
  simp at h

theorem failFast_singleton (r : StepResult) : FailFast [r] := by
  intro j h _
  have hj : j = 0 := Nat.lt_one_iff.mp (by simpa using h)
  subst hj
  rfl

theorem failFast_cons (r : StepResult) (l : List StepResult)
    (hr : r.exit_code = 0) (hl : FailFast l) : FailFast (r :: l) := by
  intro j h hne
  cases j with
  | zero => exact absurd hr hne
  | succ k =>
    have h' : k < l.length := by simpa using h
    have := hl k h' hne
    simp [List.length_cons, this]

/-- The results of the step loop are fail-fast: every branch that
appends a result with non-zero exit code breaks the loop. -/
theorem stepLoop_failFast (env : JobEnv) (req : RunRequest) (hw ho lo : String) :
    ∀ (steps : List Step) (i : Nat) (fs : List (String × String)),
      FailFast (stepLoop env req hw ho lo steps i fs).results := by
  intro steps
  induction steps with
  | nil => intro i fs; simpa [stepLoop] using failFast_nil
  | cons step rest ih =>
    intro i fs
    cases houtcome : env.outcome i with
    | completed out =>
      by_cases hz : out.exit_code = 0
      · have hz' : ¬ out.exit_code ≠ 0 := by simpa using hz
        simp only [stepLoop, houtcome, if_neg hz']
        exact failFast_cons _ _ hz (ih (i + 1) _)
      · simp only [stepLoop, houtcome, if_pos hz]
        exact failFast_singleton _
    | timedOut so se =>
      simp only [stepLoop, houtcome]
      exact failFast_singleton _
    | fileNotFound msg =>
      simp only [stepLoop, houtcome]
      exact failFast_singleton _
    | raised msg =>
      simp only [stepLoop, houtcome]
      exact failFast_singleton _

/-- The names of the results are a prefix of the names of the steps:
results come one per executed step, in request order. -/
theorem stepLoop_names_prefix (env : JobEnv) (req : RunRequest) (hw ho lo : String) :
    ∀ (steps : List Step) (i : Nat) (fs : List (String × String)),
      (stepLoop env req hw ho lo steps i fs).results.map StepResult.name <+:
        steps.map Step.name := by
  intro steps
  induction steps with
  | nil => intro i fs; simp [stepLoop]
  | cons step rest ih =>
    intro i fs
    cases houtcome : env.outcome i with
    | completed out =>
      by_cases hz : out.exit_code = 0
      · have hz' : ¬ out.exit_code ≠ 0 := by simpa using hz
        simp only [stepLoop, houtcome, if_neg hz', List.map_cons]
        exact List.cons_prefix_cons.mpr ⟨rfl, ih (i + 1) _⟩
      · simp only [stepLoop, houtcome, if_pos hz, List.map_cons]
        exact ⟨rest.map Step.name, rfl⟩
    | timedOut so se =>
      simp only [stepLoop, houtcome, List.map_cons]
      exact ⟨rest.map Step.name, rfl⟩
    | fileNotFound msg =>
      simp only [stepLoop, houtcome, List.map_cons]
      exact ⟨rest.map Step.name, rfl⟩
    | raised msg =>
      simp only [stepLoop, houtcome, List.map_cons]
      exact ⟨rest.map Step.name, rfl⟩

/-- A file entry under a key other than `_last_step.txt` survives
`writeFile fs "_last_step.txt" v`. -/
theorem writeFile_mem (fs : List (String × String)) (p c q v : String)
    (hne : p ≠ q) (hm : (p, c) ∈ fs) : (p, c) ∈ writeFile fs q v := by
  unfold writeFile
  split
  · exact List.mem_map.mpr ⟨(p, c), hm, by simp [hne]⟩
  · exact List.mem_append_left _ hm

/-- The step loop writes only `_last_step.txt` into `out/`: any other
entry present before the loop is still present after it. -/
theorem stepLoop_fs_preserve (env : JobEnv) (req : RunRequest) (hw ho lo : String) :
    ∀ (steps : List Step) (i : Nat) (fs : List (String × String)) (p c : String),
      p ≠ "_last_step.txt" → (p, c) ∈ fs →
      (p, c) ∈ (stepLoop env req hw ho lo steps i fs).fs := by
  intro steps
  induction steps with
  | nil => intro i fs p c hne hm; simpa [stepLoop] using hm
  | cons step rest ih =>
    intro i fs p c hne hm
    cases houtcome : env.outcome i with
    | completed out =>
      by_cases hz : out.exit_code = 0
      · have hz' : ¬ out.exit_code ≠ 0 := by simpa using hz
        simp only [stepLoop, houtcome, if_neg hz']
        exact ih (i + 1) _ p c hne (writeFile_mem _ _ _ _ _ hne hm)
      · simp only [stepLoop, houtcome, if_pos hz]
        exact writeFile_mem _ _ _ _ _ hne hm
    | timedOut so se => simp only [stepLoop, houtcome]; exact hm
    | fileNotFound msg => simp only [stepLoop, houtcome]; exact hm
    | raised msg => simp only [stepLoop, houtcome]; exact hm

/-- Every docker invocation composed by the loop is `dockerCmd` for
one of the steps, with the loop's host-side mount directories and pull
arguments, named by `containerName`, and carries that step's script. -/
theorem stepLoop_execs (env : JobEnv) (req : RunRequest) (hw ho lo : String) :
    ∀ (steps : List Step) (i : Nat) (fs : List (String × String)),
      ∀ ex ∈ (stepLoop env req hw ho lo steps i fs).execs,
        ∃ (k : Nat) (step : Step), step ∈ steps ∧
          ex = ⟨containerName env.jobId step.name (env.stepNonce k),
                dockerCmd req (containerName env.jobId step.name (env.stepNonce k))
                  hw ho step (pullArgs (pullPolicy env)),
                stepScript step⟩ := by
  intro steps
  induction steps with
  | nil => intro i fs ex hex; simp [stepLoop] at hex
  | cons step rest ih =>
    intro i fs ex hex
    cases houtcome : env.outcome i with
    | completed out =>
      by_cases hz : out.exit_code = 0
      · have hz' : ¬ out.exit_code ≠ 0 := by simpa using hz
        simp only [stepLoop, houtcome, if_neg hz'] at hex
        rcases List.mem_cons.mp hex with h | h
        · exact ⟨i, step, List.mem_cons_self _ _, h⟩
        · rcases ih (i + 1) _ ex h with ⟨k, st, hst, hcmd⟩
          exact ⟨k, st, List.mem_cons_of_mem _ hst, hcmd⟩
      · simp only [stepLoop, houtcome, if_pos hz, List.mem_singleton] at hex
        exact ⟨i, step, List.mem_cons_self _ _, hex⟩
    | timedOut so se =>
      simp only [stepLoop, houtcome, List.mem_singleton] at hex
      exact ⟨i, step, List.mem_cons_self _ _, hex⟩
    | fileNotFound msg =>
      simp only [stepLoop, houtcome, List.mem_singleton] at hex
      exact ⟨i, step, List.mem_cons_self _ _, hex⟩
    | raised msg =>
      simp only [stepLoop, houtcome, List.mem_singleton] at hex
      exact ⟨i, step, List.mem_cons_self _ _, hex⟩

/-- Every file write performed inside the loop targets
`<localOut>/_last_step.txt` — a path under the local out directory. -/
theorem stepLoop_writePaths (env : JobEnv) (req : RunRequest) (hw ho lo : String) :
    ∀ (steps : List Step) (i : Nat) (fs : List (String × String)),
      ∀ p ∈ (stepLoop env req hw ho lo steps i fs).writePaths,
        p = pathJoin lo "_last_step.txt" := by
  intro steps
  induction steps with
  | nil => intro i fs p hp; simp [stepLoop] at hp
  | cons step rest ih =>
    intro i fs p hp
    cases houtcome : env.outcome i with
    | completed out =>
      by_cases hz : out.exit_code = 0
      · have hz' : ¬ out.exit_code ≠ 0 := by simpa using hz
        simp only [stepLoop, houtcome, if_neg hz'] at hp
        rcases List.mem_cons.mp hp with h | h
        · exact h
        · exact ih (i + 1) _ p h
      · simp only [stepLoop, houtcome, if_pos hz, List.mem_singleton] at hp
        exact hp
    | timedOut so se => simp [stepLoop, houtcome] at hp
    | fileNotFound msg => simp [stepLoop, houtcome] at hp
    | raised msg => simp [stepLoop, houtcome] at hp

/-- Reaching step `k`: if the first `k` outcomes complete with exit
code 0, the loop's results are those `k` successful results followed by
whatever the loop does from step `k` on, and no kill is issued before
step `k`. -/
theorem stepLoop_reach (env : JobEnv) (req : RunRequest) (hw ho lo : String) :
    ∀ (k : Nat) (steps : List Step) (i : Nat) (fs : List (String × String)),
      k ≤ steps.length →
      (∀ j, j < k → ∃ out, env.outcome (i + j) = SpawnOutcome.completed out ∧
        out.exit_code = 0) →
      ∃ (pre : List StepResult) (fsk : List (String × String)),
        pre.length = k ∧
        (stepLoop env req hw ho lo steps i fs).results
          = pre ++ (stepLoop env req hw ho lo (steps.drop k) (i + k) fsk).results ∧
        (stepLoop env req hw ho lo steps i fs).kills
          = (stepLoop env req hw ho lo (steps.drop k) (i + k) fsk).kills := by
  intro k
  induction k with
  | zero =>
    intro steps i fs _ _
    exact ⟨[], fs, rfl, by simp, by simp⟩
  | succ k ihk =>
    intro steps i fs hk hpre
    cases steps with
    | nil => simp at hk
    | cons step rest =>
      obtain ⟨out0, hout0, hz0⟩ := hpre 0 (Nat.succ_pos k)
      rw [Nat.add_zero] at hout0
      have hz0' : ¬ out0.exit_code ≠ 0 := by simpa using hz0
      have hrest : k ≤ rest.length := by simpa using hk
      have hpre' : ∀ j, j < k → ∃ out,
          env.outcome (i + 1 + j) = SpawnOutcome.completed out ∧ out.exit_code = 0 := by
        intro j hj
        have := hpre (j + 1) (by omega)
        rwa [show i + (j + 1) = i + 1 + j by omega] at this
      obtain ⟨pre', fsk, hlen, hres, hkills⟩ := ihk rest (i + 1) (writeFile fs "_last_step.txt"
        ("name=" ++ step.name ++ "\nexit_code=" ++ toString out0.exit_code ++ "\n"))
        hrest hpre'
      refine ⟨⟨step.name, out0.exit_code, out0.stdout, out0.stderr⟩ :: pre', fsk,
        by simp [hlen], ?_, ?_⟩
      · simp only [stepLoop, hout0, if_neg hz0', List.drop_succ_cons,
          show i + (k + 1) = i + 1 + k by omega]
        simpa using hres
      · simp only [stepLoop, hout0, if_neg hz0', List.drop_succ_cons,
          show i + (k + 1) = i + 1 + k by omega]
        exact hkills

/-! ## Concrete inputs used by witnesses and counterexamples -/

/-- A concrete job environment whose every step completes with exit
code 2. -/
def envFail : JobEnv :=
  { localJobsDir? := Option.none, hostJobsDir? := Option.none,
    pullPolicy? := Option.none, cwd := "/app",
    jobId := "0123456789abcdef", jobDirName := "job-x",
    stepNonce := fun _ => "aaaa",
    outcome := fun _ => SpawnOutcome.completed ⟨2, "", "boom"⟩ }

/-- A concrete two-step request. -/
def reqTwo : RunRequest :=
  { repo_url := "https://example.com/repo.git",
    steps := [{ name := "a", command := "false" }, { name := "b", command := "true" }] }

/-! ## Claims -/

/-- C1. Fail-fast: for every run of a job, if the `i`-th `StepResult`
in `results` has non-zero exit code (the synthesized codes 124 and 999
included), then `results` has exactly `i + 1` entries — no step after
the first failing one is executed. -/
theorem C1_fail_fast (env : JobEnv) (req : RunRequest) (i : Nat)
    (h : i < (run_job env req).results.length)
    (hne : ((run_job env req).results.get ⟨i, h⟩).exit_code ≠ 0) :
    (run_job env req).results.length = i + 1 :=
  stepLoop_failFast env req (hostWsDir env) (hostOutDir env) (localOutDir env)
    req.steps 0 (writeFile [] "_runner.txt" "runner_ok=1\n") i h hne

/-- Witness for C1 at a concrete failing job: the first step exits 2
and the results stop at length 1. -/
theorem C1_fail_fast_witness :
    (run_job envFail reqTwo).results.length = 0 + 1 :=
  C1_fail_fast envFail reqTwo 0 (by decide) (by decide)

/-- C3. Artifact presence: every completed `run_job` (success or step
failure) emits an artifact archive; its entries are the files under the
job's `out/` directory keyed by path relative to it, and the marker
`_runner.txt` written by the Job Runner is always among them. -/
theorem C3_artifact_presence (env : JobEnv) (req : RunRequest) :
    ∃ entries, (run_job env req).artifacts = some entries ∧
      ("_runner.txt", "runner_ok=1\n") ∈ entries := by
  refine ⟨_, rfl, ?_⟩
  exact stepLoop_fs_preserve env req (hostWsDir env) (hostOutDir env) (localOutDir env)
    req.steps 0 _ "_runner.txt" "runner_ok=1\n" (by decide) (by simp [writeFile])

/-- C6. Ordering: results are one per executed step, in request order:
`results.length ≤ steps.length` and the `i`-th result carries the
`i`-th step's name. -/
theorem C6_ordering (env : JobEnv) (req : RunRequest) :
    (run_job env req).results.length ≤ req.steps.length ∧
    ∀ (i : Nat) (h : i < (run_job env req).results.length)
      (h' : i < req.steps.length),
      ((run_job env req).results.get ⟨i, h⟩).name = (req.steps.get ⟨i, h'⟩).name := by
  have P := stepLoop_names_prefix env req (hostWsDir env) (hostOutDir env) (localOutDir env)
    req.steps 0 (writeFile [] "_runner.txt" "runner_ok=1\n")
  constructor
  · simpa using P.length_le
  · intro i h h'
    have hi : i < ((stepLoop env req (hostWsDir env) (hostOutDir env) (localOutDir env)
        req.steps 0 (writeFile [] "_runner.txt" "runner_ok=1\n")).results.map
          StepResult.name).length := by
      simpa using h
    have := P.getElem hi
    simpa using this

/-- Witness for C6 at a concrete job: the first result's name is the
first step's name. -/
theorem C6_ordering_witness :
    ((run_job envFail reqTwo).results.get ⟨0, by decide⟩).name
      = (reqTwo.steps.get ⟨0, by decide⟩).name :=
  (C6_ordering envFail reqTwo).2 0 (by decide) (by decide)

/-- C7. Path mapping: the local and host job directories append the
same relative job subpath to the local and host roots respectively;
with `MATRIXLAB_HOST_JOBS_DIR` undefined the host root defaults to the
local root so the two coincide; every file write targets the local out
directory while every composed docker invocation mounts the host-side
`ws/` and `out/` directories. -/
theorem C7_path_mapping (env : JobEnv) (req : RunRequest) :
    localJobDir env = pathJoin (localJobsRoot env) (relPath env) ∧
    hostJobDir env = pathJoin (hostJobsRoot env) (relPath env) ∧
    (env.hostJobsDir? = Option.none → hostJobDir env = localJobDir env) ∧
    (∀ p ∈ (run_job env req).writePaths, ∃ f, p = pathJoin (localOutDir env) f) ∧
    (∀ ex ∈ (run_job env req).execs, ∃ pre post,
      ex.cmd = pre ++ ["-v", hostWsDir env ++ ":/workspace:rw",
                       "-v", hostOutDir env ++ ":/output:rw"] ++ post) := by
  refine ⟨rfl, rfl, ?_, ?_, ?_⟩
  · intro h
    simp [hostJobDir, hostJobsRoot, localJobDir, relPath, h]
  · intro p hp
    rcases List.mem_cons.mp hp with h | h
    · exact ⟨"_runner.txt", h⟩
    · exact ⟨"_last_step.txt", stepLoop_writePaths env req (hostWsDir env) (hostOutDir env)
        (localOutDir env) req.steps 0 _ p h⟩
  · intro ex hex
    obtain ⟨k, step, _, hcmd⟩ := stepLoop_execs env req (hostWsDir env) (hostOutDir env)
      (localOutDir env) req.steps 0 _ ex hex
    refine ⟨["docker", "run", "--rm", "--name",
      containerName env.jobId step.name (env.stepNonce k), "--init", "--read-only",
      "--pids-limit", toString req.pids_limit, "--cpus", toString req.cpu_limit,
      "--memory", toString req.mem_limit_mb ++ "m", "--security-opt",
      "no-new-privileges", "--cap-drop", "ALL", "--ipc", "none", "--workdir",
      "/workspace"],
      ["--tmpfs", "/tmp:rw,noexec,nosuid,size=256m"] ++ networkFlag step.network ++
        pullArgs (pullPolicy env) ++ [req.sandbox_image, "bash", "-lc"], ?_⟩
    rw [hcmd]
    simp [dockerCmd]

/-- Witness for C7 at a concrete environment without
`MATRIXLAB_HOST_JOBS_DIR`: host and local job directories coincide. -/
theorem C7_path_mapping_witness :
    hostJobDir envFail = localJobDir envFail :=
  (C7_path_mapping envFail reqTwo).2.2.1 rfl

/-- C4. Timeout handling: if the first `k` steps complete with exit
code 0 and step `k`'s subprocess times out, the Runner kills the
container by its composed name, the results end with a synthesized
`StepResult` of exit code exactly 124 whose stderr carries the
`TIMEOUT` marker, and the job stops: `results.length = k + 1`. -/
theorem C4_timeout (env : JobEnv) (req : RunRequest) (k : Nat) (so se : Option String)
    (hk : k < req.steps.length)
    (hpre : ∀ j, j < k → ∃ out, env.outcome j = SpawnOutcome.completed out ∧
      out.exit_code = 0)
    (ht : env.outcome k = SpawnOutcome.timedOut so se) :
    ∃ pre : List StepResult,
      pre.length = k ∧
      (run_job env req).results = pre ++
        [⟨(req.steps.get ⟨k, hk⟩).name, 124, so.getD "", se.getD "" ++ "\nTIMEOUT"⟩] ∧
      (run_job env req).results.length = k + 1 ∧
      (run_job env req).kills =
        [containerName env.jobId (req.steps.get ⟨k, hk⟩).name (env.stepNonce k)] := by
  obtain ⟨pre, fsk, hlen, hres, hkills⟩ := stepLoop_reach env req (hostWsDir env)
    (hostOutDir env) (localOutDir env) k req.steps 0
    (writeFile [] "_runner.txt" "runner_ok=1\n") (le_of_lt hk)
    (by intro j hj; simpa using hpre j hj)
  have hdrop : req.steps.drop k = req.steps.get ⟨k, hk⟩ :: req.steps.drop (k + 1) := by
    rw [List.get_eq_getElem]
    exact List.drop_eq_getElem_cons hk
  have hzk : (0 : Nat) + k = k := by omega
  rw [hdrop, hzk] at hres hkills
  simp only [stepLoop, ht] at hres hkills
  have h2 : (run_job env req).results = pre ++
      [⟨(req.steps.get ⟨k, hk⟩).name, 124, so.getD "", se.getD "" ++ "\nTIMEOUT"⟩] := hres
  refine ⟨pre, hlen, h2, ?_, hkills⟩
  rw [h2]
  simp [hlen]

/-- A concrete environment whose first spawn times out. -/
def envTimeout : JobEnv :=
  { envFail with outcome := fun _ => SpawnOutcome.timedOut (some "partial out") (some "err") }

/-- Witness for C4 at a concrete job whose single step times out. -/
theorem C4_timeout_witness :
    ∃ pre : List StepResult,
      pre.length = 0 ∧
      (run_job envTimeout reqTwo).results = pre ++
        [⟨(reqTwo.steps.get ⟨0, by decide⟩).name, 124, "partial out", "err" ++ "\nTIMEOUT"⟩] ∧
      (run_job envTimeout reqTwo).results.length = 0 + 1 ∧
      (run_job envTimeout reqTwo).kills =
        [containerName envTimeout.jobId (reqTwo.steps.get ⟨0, by decide⟩).name
          (envTimeout.stepNonce 0)] :=
  C4_timeout envTimeout reqTwo 0 (some "partial out") (some "err") (by decide)
    (fun j hj => absurd hj (Nat.not_lt_zero j)) rfl

/-- C5. Spawn failure handling: if the first `k` steps complete with
exit code 0 and spawning step `k` raises — `FileNotFoundError` (the
container runtime client binary is gone) or any other exception — the
results end with a `StepResult` of exit code 999 whose stderr names the
failure, and the job stops: `results.length = k + 1`. -/
theorem C5_spawn_failure (env : JobEnv) (req : RunRequest) (k : Nat)
    (hk : k < req.steps.length)
    (hpre : ∀ j, j < k → ∃ out, env.outcome j = SpawnOutcome.completed out ∧
      out.exit_code = 0) :
    (∀ msg, env.outcome k = SpawnOutcome.fileNotFound msg →
      ∃ pre : List StepResult, pre.length = k ∧
        (run_job env req).results = pre ++
          [⟨(req.steps.get ⟨k, hk⟩).name, 999, "",
            "Runner error: docker CLI not found.\n" ++ msg⟩] ∧
        (run_job env req).results.length = k + 1) ∧
    (∀ msg, env.outcome k = SpawnOutcome.raised msg →
      ∃ pre : List StepResult, pre.length = k ∧
        (run_job env req).results = pre ++
          [⟨(req.steps.get ⟨k, hk⟩).name, 999, "", "Runner error: " ++ msg⟩] ∧
        (run_job env req).results.length = k + 1) := by
  obtain ⟨pre, fsk, hlen, hres, hkills⟩ := stepLoop_reach env req (hostWsDir env)
    (hostOutDir env) (localOutDir env) k req.steps 0
    (writeFile [] "_runner.txt" "runner_ok=1\n") (le_of_lt hk)
    (by intro j hj; simpa using hpre j hj)
  have hdrop : req.steps.drop k = req.steps.get ⟨k, hk⟩ :: req.steps.drop (k + 1) := by
    rw [List.get_eq_getElem]
    exact List.drop_eq_getElem_cons hk
  have hzk : (0 : Nat) + k = k := by omega
  rw [hdrop, hzk] at hres
  constructor
  · intro msg hmsg
    simp only [stepLoop, hmsg] at hres
    have h2 : (run_job env req).results = pre ++
        [⟨(req.steps.get ⟨k, hk⟩).name, 999, "",
          "Runner error: docker CLI not found.\n" ++ msg⟩] := hres
    refine ⟨pre, hlen, h2, ?_⟩
    rw [h2]
    simp [hlen]
  · intro msg hmsg
    simp only [stepLoop, hmsg] at hres
    have h2 : (run_job env req).results = pre ++
        [⟨(req.steps.get ⟨k, hk⟩).name, 999, "", "Runner error: " ++ msg⟩] := hres
    refine ⟨pre, hlen, h2, ?_⟩
    rw [h2]
    simp [hlen]

/-- A concrete environment whose first spawn raises
`FileNotFoundError`. -/
def envNoDocker : JobEnv :=
  { envFail with
    outcome := fun _ =>
      SpawnOutcome.fileNotFound "[Errno 2] No such file or directory: docker" }

/-- Witness for C5 at a concrete job whose single spawn fails with a
missing runtime binary. -/
theorem C5_spawn_failure_witness :
    ∃ pre : List StepResult, pre.length = 0 ∧
      (run_job envNoDocker reqTwo).results = pre ++
        [⟨(reqTwo.steps.get ⟨0, by decide⟩).name, 999, "",
          "Runner error: docker CLI not found.\n" ++
            "[Errno 2] No such file or directory: docker"⟩] ∧
      (run_job envNoDocker reqTwo).results.length = 0 + 1 :=
  (C5_spawn_failure envNoDocker reqTwo 0 (by decide)
    (fun j hj => absurd hj (Nat.not_lt_zero j))).1
    "[Errno 2] No such file or directory: docker" rfl

/-- The accumulator of `String.intercalate.go` is a prefix (at the
character level) of its result. -/
theorem intercalate_go_data_prefix (s : String) :
    ∀ (as : List String) (acc : String),
      ∃ t, (String.intercalate.go acc s as).data = acc.data ++ t := by
  intro as
  induction as with
  | nil => intro acc; exact ⟨[], by simp [String.intercalate.go]⟩
  | cons a tail ih =>
    intro acc
    obtain ⟨t, ht⟩ := ih (acc ++ s ++ a)
    refine ⟨s.data ++ a.data ++ t, ?_⟩
    rw [String.intercalate.go, ht]
    simp [List.append_assoc]

/-- Intercalation starting from a string with at least one character is
itself non-empty. -/
theorem intercalate_cons_ne_empty (s a : String) (as : List String)
    (ha : a.data ≠ []) : String.intercalate s (a :: as) ≠ "" := by
  intro hcontra
  have hd := congrArg String.data hcontra
  have hgo : String.intercalate s (a :: as) = String.intercalate.go a s as := rfl
  rw [hgo] at hd
  obtain ⟨t, ht⟩ := intercalate_go_data_prefix s as a
  rw [ht] at hd
  rcases List.append_eq_nil.mp hd with ⟨h1, _⟩
  exact ha h1

/-- With a non-empty `env`, the quoted export list is a non-empty
string (each `k=v` item contains at least the `=`). -/
theorem envExports_ne_empty (step : Step) (h : step.env ≠ []) :
    envExports step ≠ "" := by
  unfold envExports
  rw [if_pos h]
  cases henv : step.env with
  | nil => exact absurd henv h
  | cons kv rest =>
    rw [List.map_cons]
    apply intercalate_cons_ne_empty
    intro hd
    rw [String.data_append, String.data_append] at hd
    rcases List.append_eq_nil.mp hd with ⟨h1, _⟩
    rcases List.append_eq_nil.mp h1 with ⟨_, h2⟩
    exact absurd h2 (by decide)

/-- C8 (amended). Step preamble: the script passed to the container is
the user command wrapped in the fixed preamble `set -euo pipefail`,
`mkdir -p /output`, `export HOME=/workspace`, `export OUTPUT_DIR=/output`,
the shell-quoted env exports (omitted when `env` is empty), and the
banner line `echo "== Matrix Lab step: <name> =="`. -/
theorem C8_step_preamble (step : Step) :
    stepScript step =
      "\nset -euo pipefail\nmkdir -p /output\nexport HOME=/workspace\nexport OUTPUT_DIR=/output\n"
      ++ (if step.env = [] then "" else
            "export " ++ String.intercalate " "
              (step.env.map fun kv => shlexQuote kv.1 ++ "=" ++ shlexQuote kv.2))
      ++ "\n\necho \"== Matrix Lab step: " ++ step.name ++ " ==\"\n"
      ++ step.command ++ "\n" := by
  by_cases h : step.env = []
  · simp [stepScript, envExports, h]
  · have he := envExports_ne_empty step h
    simp only [stepScript, if_neg h, if_pos he]
    simp [envExports, h]

/-- The step script as claim C8 words it: the same wrapping but with
the banner line `echo "== step: <name> =="`; written from the claim's
words, for comparison with the source-derived `stepScript`. -/
def claimedStepScript (step : Step) : String :=
  let e := envExports step
  "\nset -euo pipefail\nmkdir -p /output\nexport HOME=/workspace\nexport OUTPUT_DIR=/output\n"
  ++ (if e ≠ "" then "export " ++ e else "")
  ++ "\n\necho \"== step: " ++ step.name ++ " ==\"\n"
  ++ step.command ++ "\n"

/-- Contiguous occurrence of `sub` anywhere in the second list, at the
character level. -/
def containsSeq (sub : List Char) : List Char → Bool
  | [] => sub.isEmpty
  | a :: as => sub.isPrefixOf (a :: as) || containsSeq sub as

/-- Counterexample to C8 as stated: for the step named `build` running
`make`, the composed script differs from the claimed one and does not
contain the claimed banner `echo "== step: build =="` at all — the
source's banner reads `== Matrix Lab step: build ==`. -/
theorem C8_counterexample :
    stepScript { name := "build", command := "make" } ≠
      claimedStepScript { name := "build", command := "make" } ∧
    containsSeq "echo \"== step: build ==\"".data
      (stepScript { name := "build", command := "make" }).data = false := by
  exact ⟨by decide, by decide⟩

/-- C10. Default network policy: a step that omits `network` validates
to mode `none` (not `egress`), and the runner maps `none` to
`--network none` and `egress` to `--network bridge`. -/
theorem C10_network_default :
    (∀ (r : RawStep) (s : Step), r.network = Option.none →
      parseStep r = Except.ok s → s.network = NetworkMode.none) ∧
    networkFlag NetworkMode.none = ["--network", "none"] ∧
    networkFlag NetworkMode.egress = ["--network", "bridge"] := by
  refine ⟨?_, rfl, rfl⟩
  intro r s hn hp
  cases hname : r.name with
  | none => simp [parseStep, hname] at hp
  | some n =>
    cases hcmd : r.command with
    | none => simp [parseStep, hname, hcmd] at hp
    | some c =>
      simp [parseStep, hname, hcmd, hn, parseNetwork] at hp
      rw [← hp]

/-- A concrete raw step giving only the required fields. -/
def rawStepD : RawStep := { name := some "a", command := some "b" }

/-- Witness for C10: the minimal raw step validates with network mode
`none`. -/
theorem C10_network_default_witness :
    ({ name := "a", command := "b" } : Step).network = NetworkMode.none :=
  C10_network_default.1 rawStepD { name := "a", command := "b" } rfl rfl

/-- If some element of the raw steps list is missing `name` or
`command`, validation of the list fails. -/
theorem parseSteps_error_of_mem (rs : List RawStep) (r : RawStep) (hr : r ∈ rs)
    (hbad : r.name = Option.none ∨ r.command = Option.none) :
    ∃ e, parseSteps rs = Except.error e := by
  induction rs with
  | nil => simp at hr
  | cons head tail ih =>
    rcases List.mem_cons.mp hr with h | h
    · subst h
      rcases hbad with hb | hb
      · exact ⟨"steps: name: field required", by simp [parseSteps, parseStep, hb]⟩
      · cases hn : r.name with
        | none => exact ⟨"steps: name: field required",
            by simp [parseSteps, parseStep, hn]⟩
        | some n => exact ⟨"steps: command: field required",
            by simp [parseSteps, parseStep, hn, hb]⟩
    · cases hps : parseStep head with
      | error e => exact ⟨e, by simp [parseSteps, hps]⟩
      | ok s =>
        obtain ⟨e, he⟩ := ih h
        exact ⟨e, by simp [parseSteps, hps, he]⟩

/-- A concrete raw `/run` body missing the required `repo_url`. -/
def rawMissingRepo : RawRunRequest :=
  { steps := some [{ name := some "a", command := some "true" }] }

/-- Counterexample to C2 as stated: a `/run` body missing `repo_url`
is answered with HTTP 422 (FastAPI's default for a pydantic validation
failure, which `main.py` does not override), not with 400. -/
theorem C2_counterexample :
    statusCode (postRun envFail rawMissingRepo) = 422 ∧ (422 : Nat) ≠ 400 :=
  ⟨rfl, by decide⟩

/-- C2 (amended). Validation errors: a `/run` request missing a
required field — `repo_url`, `steps`, or a step's `name` or `command` —
is rejected with HTTP status 422 (FastAPI's default validation
response; no custom handler is installed), before any job work is
done. -/
theorem C2_validation (env : JobEnv) (raw : RawRunRequest)
    (hmiss : raw.repo_url = Option.none ∨ raw.steps = Option.none ∨
      ∃ rs ∈ raw.steps.getD [], rs.name = Option.none ∨ rs.command = Option.none) :
    ∃ msg, postRun env raw = HttpResponse.validationError msg ∧
      statusCode (postRun env raw) = 422 := by
  have herr : ∃ e, parseRunRequest raw = Except.error e := by
    rcases hmiss with h | h | ⟨r, hr, hbad⟩
    · exact ⟨"repo_url: field required", by simp [parseRunRequest, h]⟩
    · cases hu : raw.repo_url with
      | none => exact ⟨"repo_url: field required", by simp [parseRunRequest, hu]⟩
      | some u => exact ⟨"steps: field required", by simp [parseRunRequest, hu, h]⟩
    · cases hu : raw.repo_url with
      | none => exact ⟨"repo_url: field required", by simp [parseRunRequest, hu]⟩
      | some u =>
        cases hs : raw.steps with
        | none => exact ⟨"steps: field required", by simp [parseRunRequest, hu, hs]⟩
        | some l =>
          rw [hs] at hr
          obtain ⟨e, he⟩ := parseSteps_error_of_mem l r (by simpa using hr) hbad
          exact ⟨e, by simp [parseRunRequest, hu, hs, he]⟩
  obtain ⟨e, he⟩ := herr
  exact ⟨e, by simp [postRun, he], by simp [postRun, he, statusCode]⟩

/-- A concrete raw `/run` body whose only step is missing `command`. -/
def rawStepNoCmd : RawRunRequest :=
  { repo_url := some "https://example.com/r.git",
    steps := some [{ name := some "a" }] }

/-- Witness for C2 at a concrete body with a step missing `command`:
the response is a 422 validation error. -/
theorem C2_validation_witness :
    ∃ msg, postRun envFail rawStepNoCmd = HttpResponse.validationError msg ∧
      statusCode (postRun envFail rawStepNoCmd) = 422 :=
  C2_validation envFail rawStepNoCmd
    (Or.inr (Or.inr ⟨{ name := some "a" }, List.mem_singleton.mpr rfl, Or.inr rfl⟩))

/-- A concrete raw `/run` body with an empty `steps` array. -/
def rawEmptySteps : RawRunRequest :=
  { repo_url := some "https://example.com/r.git", steps := some [] }

/-- Counterexample to C9 as stated: a `/run` body with `steps = []` is
not rejected — pydantic's `List[Step]` has no minimum length, the
request validates, and the job runs zero steps and answers 200 with
empty results. -/
theorem C9_counterexample :
    statusCode (postRun envFail rawEmptySteps) = 200 ∧
    responseResults (postRun envFail rawEmptySteps) = some [] :=
  ⟨rfl, rfl⟩

/-- C9 (amended). Empty steps accepted: a `/run` request with an empty
`steps` list (and `repo_url` present) is accepted rather than
rejected; the job executes zero steps and returns empty results
together with the artifact archive. -/
theorem C9_empty_steps (env : JobEnv) (raw : RawRunRequest) (u : String)
    (hrepo : raw.repo_url = some u) (hsteps : raw.steps = some []) :
    ∃ o, postRun env raw = HttpResponse.ok o ∧ o.results = [] ∧
      o.artifacts ≠ Option.none := by
  refine ⟨run_job env
    { repo_url := u, ref := raw.ref, steps := [],
      cpu_limit := raw.cpu_limit.getD 1.0,
      mem_limit_mb := raw.mem_limit_mb.getD 1024,
      pids_limit := raw.pids_limit.getD 256,
      sandbox_image := raw.sandbox_image.getD "matrix-lab-sandbox-python:latest" },
    ?_, rfl, by simp [run_job]⟩
  simp [postRun, parseRunRequest, hrepo, hsteps, parseSteps]

/-- Witness for C9 at the concrete empty-steps body. -/
theorem C9_empty_steps_witness :
    ∃ o, postRun envFail rawEmptySteps = HttpResponse.ok o ∧ o.results = [] ∧
      o.artifacts ≠ Option.none :=
  C9_empty_steps envFail rawEmptySteps "https://example.com/r.git" rfl rfl

end Matrixlab
